import Mathlib

/-!
Verification development for the mediaserve-common toolkit (src/index.js).

The JavaScript source is shallowly embedded: JavaScript values are modelled by
the inductive type JSValue, stateful operations (the timer registry of the
service class, the stopwatch) are modelled by explicit state passing, and the
external collaborators (the HTTP transport, the pooled database connection, the
uuid v5 hash) are parameters of the embedded operations.  Machine clock
readings (process.hrtime) are modelled as total nanosecond counts.
-/

/-! ## JavaScript values

A JSValue covers the JavaScript values the library manipulates: undefined,
null, booleans, (integral) numbers, primitive strings, arrays, plain objects
(their enumerable own properties, in insertion order) and Error instances.
An Error instance carries its message (which in JavaScript is a
NON-enumerable own property) separately from its enumerable own properties.
Arrays and property lists are mutual inductives so that every function on
values is structurally recursive and evaluates inside the kernel. -/

mutual

inductive JSValue where
  | undefined : JSValue
  | null : JSValue
  | bool : Bool → JSValue
  | num : Int → JSValue
  | str : String → JSValue
  | arr : JSList → JSValue
  | obj : JSProps → JSValue
  | errObj : String → JSProps → JSValue

inductive JSList where
  | nil : JSList
  | cons : JSValue → JSList → JSList

inductive JSProps where
  | nil : JSProps
  | cons : String → JSValue → JSProps → JSProps

end

/-! ## Decimal rendering of numbers

JavaScript renders an integral number as its base-10 digit string (the
ToString algorithm).  The digit loop is written with explicit fuel so that it
is structurally recursive and evaluates inside the kernel; natDecAux mirrors
the usual divide-by-ten digit extraction. -/

/-- Model of a single base-10 digit rendered as a character. -/
def natDigitChar : Nat → Char
  | 0 => '0'
  | 1 => '1'
  | 2 => '2'
  | 3 => '3'
  | 4 => '4'
  | 5 => '5'
  | 6 => '6'
  | 7 => '7'
  | 8 => '8'
  | 9 => '9'
  | _ => '0'

/-- Fueled digit-extraction loop: renders n in base 10 in front of acc. -/
def natDecAux : Nat → Nat → List Char → List Char
  | 0, _, acc => acc
  | fuel + 1, n, acc =>
    let d := natDigitChar (n % 10)
    if n / 10 = 0 then d :: acc else natDecAux fuel (n / 10) (d :: acc)

/-- Base-10 rendering of a natural number, as a character list. -/
def natDec (n : Nat) : List Char := natDecAux (n + 1) n []

/-- Base-10 rendering of a natural number, as a string. -/
def natDecS (n : Nat) : String := (natDec n).asString

/-- Model of the JavaScript ToString of an integral number. -/
def intDec (i : Int) : String :=
  if i < 0 then "-" ++ natDecS i.natAbs else natDecS i.toNat

/-- Model of Array.prototype.join with separator "," over already rendered
elements. -/
def joinComma : List String → String
  | [] => ""
  | [s] => s
  | s :: t :: rest => s ++ "," ++ joinComma (t :: rest)

/-! ## The JavaScript ToString coercion

jsToString models the JavaScript String(value) coercion on JSValue:
undefined and null render as their names, booleans and numbers decimally,
strings as themselves, arrays via Array.prototype.toString (elements joined
by commas; undefined and null elements render empty), plain objects as
"[object Object]" and Error instances via Error.prototype.toString. -/

mutual

def jsToString : JSValue → String
  | JSValue.undefined => "undefined"
  | JSValue.null => "null"
  | JSValue.bool b => cond b "true" "false"
  | JSValue.num n => intDec n
  | JSValue.str s => s
  | JSValue.arr xs => joinComma (jsArrElems xs)
  | JSValue.obj _ => "[object Object]"
  | JSValue.errObj m _ => if m = "" then "Error" else "Error: " ++ m

def jsArrElems : JSList → List String
  | JSList.nil => []
  | JSList.cons x xs =>
    (match x with
     | JSValue.undefined => ""
     | JSValue.null => ""
     | y => jsToString y) :: jsArrElems xs

end

/-! ## JSON syntactic validity

src/index.js lines 125-132 decide is.json(value) by whether JSON.parse(value)
throws.  JSON.parse first coerces its argument to a string, then parses it
with the JSON grammar.  The grammar is modelled by a fueled recursive-descent
checker over the character list; parseF returns the unconsumed rest on
success.  (Two simplifications against the full grammar: escape sequences in
strings are not themselves validated, and leading zeros in numbers are
accepted; neither affects the inputs settled in this development.) -/

/-- Model of JSON insignificant whitespace. -/
def jsonWs (c : Char) : Bool := c = ' ' || c = '\t' || c = '\n' || c = '\r'

/-- Drop leading JSON whitespace. -/
def skipWs (cs : List Char) : List Char := cs.dropWhile jsonWs

/-- Consume the rest of a JSON string literal after the opening quote. -/
def parseStrRest : List Char → Option (List Char)
  | [] => none
  | c :: rest =>
    if c = '"' then some rest
    else if c = '\\' then
      match rest with
      | [] => none
      | _ :: r2 => parseStrRest r2
    else parseStrRest rest

/-- Consume a non-empty run of decimal digits. -/
def parseDigits (cs : List Char) : Option (List Char) :=
  let r := cs.dropWhile Char.isDigit
  if r.length < cs.length then some r else none

/-- Consume a JSON number. -/
def parseNumberTxt (cs : List Char) : Option (List Char) :=
  let cs1 := match cs with
    | '-' :: r => r
    | _ => cs
  match parseDigits cs1 with
  | none => none
  | some cs2 =>
    let fracPart := match cs2 with
      | '.' :: r => parseDigits r
      | _ => some cs2
    match fracPart with
    | none => none
    | some cs4 =>
      match cs4 with
      | 'e' :: r =>
        parseDigits (match r with
          | '+' :: r2 => r2
          | '-' :: r2 => r2
          | _ => r)
      | 'E' :: r =>
        parseDigits (match r with
          | '+' :: r2 => r2
          | '-' :: r2 => r2
          | _ => r)
      | _ => some cs4

/-- Parser mode: a single JSON value, the items of an array after the opening
bracket, or the members of an object after the opening brace. -/
inductive PMode where
  | value : PMode
  | arrItems : PMode
  | objItems : PMode

/-- Fueled recursive-descent JSON checker; returns the unconsumed rest. -/
def parseF : Nat → PMode → List Char → Option (List Char)
  | 0, _, _ => none
  | fuel + 1, PMode.value, cs =>
    match skipWs cs with
    | 'n' :: 'u' :: 'l' :: 'l' :: r => some r
    | 't' :: 'r' :: 'u' :: 'e' :: r => some r
    | 'f' :: 'a' :: 'l' :: 's' :: 'e' :: r => some r
    | '"' :: r => parseStrRest r
    | '[' :: r =>
      (match skipWs r with
       | ']' :: r2 => some r2
       | _ => parseF fuel PMode.arrItems r)
    | '\x7b' :: r =>
      (match skipWs r with
       | '\x7d' :: r2 => some r2
       | _ => parseF fuel PMode.objItems r)
    | cs2 => parseNumberTxt cs2
  | fuel + 1, PMode.arrItems, cs =>
    match parseF fuel PMode.value cs with
    | none => none
    | some r =>
      match skipWs r with
      | ',' :: r2 => parseF fuel PMode.arrItems r2
      | ']' :: r2 => some r2
      | _ => none
  | fuel + 1, PMode.objItems, cs =>
    match skipWs cs with
    | '"' :: r =>
      (match parseStrRest r with
       | none => none
       | some r2 =>
         match skipWs r2 with
         | ':' :: r3 =>
           (match parseF fuel PMode.value r3 with
            | none => none
            | some r4 =>
              match skipWs r4 with
              | ',' :: r5 => parseF fuel PMode.objItems r5
              | '\x7d' :: r5 => some r5
              | _ => none)
         | _ => none)
    | _ => none

/-- Model of whether JSON.parse accepts the text (after coercion to string):
a single JSON value followed only by whitespace. -/
def jsonValid (s : String) : Bool :=
  match parseF (2 * s.data.length + 4) PMode.value s.data with
  | some r => (skipWs r).isEmpty
  | none => false

namespace Service

/-! ## The this.is type predicates (src/index.js lines 103-133) -/

namespace is

/-- Model of this.is.null: value === null. -/
def null : JSValue → Bool
  | JSValue.null => true
  | _ => false

/-- Model of this.is.undefined: typeof value === undefined. -/
def undefined : JSValue → Bool
  | JSValue.undefined => true
  | _ => false

/-- Model of this.is.string: typeof value === string (boxed String instances
are not part of the value model). -/
def string : JSValue → Bool
  | JSValue.str _ => true
  | _ => false

/-- Model of this.is.array: Array.isArray(value). -/
def array : JSValue → Bool
  | JSValue.arr _ => true
  | _ => false

/-- Model of this.is.object: a non-null object whose constructor is Object,
so plain objects only (arrays and Error instances answer false). -/
def object : JSValue → Bool
  | JSValue.obj _ => true
  | _ => false

/-- Model of this.is.boolean. -/
def boolean : JSValue → Bool
  | JSValue.bool _ => true
  | _ => false

/-- Model of this.is.error: an Error instance with a defined message; in the
value model every Error instance carries its message, so this recognises the
errObj constructor. -/
def error : JSValue → Bool
  | JSValue.errObj _ _ => true
  | _ => false

/-- Model of this.is.json: JSON.parse(value) does not throw, where the
argument is first coerced to a string. -/
def json (value : JSValue) : Bool := jsonValid (jsToString value)

end is

end Service

/-! ## JSON.stringify

Model of the JSON.stringify builtin used by the query executor (src/index.js
line 372) and by the UUID helper (line 65).  undefined serialises to nothing
(object properties holding it are skipped; array elements holding it render
as null), and an Error instance serialises through its enumerable own
properties only, so its (non-enumerable) message is not part of the output.
Control characters other than the common escapes are not modelled. -/

/-- Character class that jsonEscape rewrites. -/
def needsEscape (c : Char) : Bool :=
  c = '"' || c = '\\' || c = '\n' || c = '\t' || c = '\r'

/-- Escape a single character for a JSON string literal. -/
def escapeChar (c : Char) : List Char :=
  if c = '"' then ['\\', '"']
  else if c = '\\' then ['\\', '\\']
  else if c = '\n' then ['\\', 'n']
  else if c = '\t' then ['\\', 't']
  else if c = '\r' then ['\\', 'r']
  else [c]

/-- Escape every character of a JSON string literal body. -/
def escapeList : List Char → List Char
  | [] => []
  | c :: cs => escapeChar c ++ escapeList cs

/-- Render a string as a quoted JSON string literal. -/
def jsonQuote (s : String) : String :=
  "\"" ++ String.mk (escapeList s.data) ++ "\""

mutual

def jsonStringify : JSValue → Option String
  | JSValue.undefined => none
  | JSValue.null => some "null"
  | JSValue.bool b => some (cond b "true" "false")
  | JSValue.num n => some (intDec n)
  | JSValue.str s => some (jsonQuote s)
  | JSValue.arr xs => some ("[" ++ joinComma (jsonElems xs) ++ "]")
  | JSValue.obj props => some ("\x7b" ++ joinComma (jsonProps props) ++ "\x7d")
  | JSValue.errObj _ props => some ("\x7b" ++ joinComma (jsonProps props) ++ "\x7d")

def jsonElems : JSList → List String
  | JSList.nil => []
  | JSList.cons x xs =>
    (match jsonStringify x with
     | some s => s
     | none => "null") :: jsonElems xs

def jsonProps : JSProps → List String
  | JSProps.nil => []
  | JSProps.cons k v ps =>
    match jsonStringify v with
    | none => jsonProps ps
    | some sv => (jsonQuote k ++ ":" ++ sv) :: jsonProps ps

end

/-! ## The timer registry (src/index.js line 55)

this.timers is an array of setTimeout handles; the array only ever grows
(push at line 190), and clearTimeout disarms a handle without removing it
from the array.  A slot is modelled by the state of its handle: still armed,
already fired, or cleared via clearTimeout. -/

inductive TimerStatus where
  | armed : TimerStatus
  | fired : TimerStatus
  | cleared : TimerStatus
  deriving DecidableEq

/-- Effect of clearTimeout on one handle: disarms an armed timer and is a
no-op on a handle that already fired or was already cleared. -/
def clearTimeoutStatus : TimerStatus → TimerStatus
  | TimerStatus.armed => TimerStatus.cleared
  | s => s

namespace Service

/-! ## The cancellable outbound call (src/index.js lines 176-198)

The underlying node-fetch transport and the response.json() parser are
external collaborators; one invocation of them is summarised by a
TransportEvent: either the response arrives after a given delay and its body
parse yields a value or a parse error, or the transport itself fails after a
given delay.  The abort timer armed at line 190 fires after
timeoutMs; if the transport event happens strictly later, the controller
aborts and node-fetch rejects with an AbortError, which the catch block at
line 195 rethrows unchanged.  The timer handle is pushed at line 190 and
clearTimeout is reached only on the path where the await at line 191
resolves. -/

inductive TransportEvent where
  | completes : Nat → Except JSValue JSValue → TransportEvent
  | fails : Nat → JSValue → TransportEvent

/-- Delay after which the transport event would occur. -/
def transAfter : TransportEvent → Nat
  | TransportEvent.completes after _ => after
  | TransportEvent.fails after _ => after

inductive FetchError where
  | invalid : String → FetchError
  | abortError : FetchError
  | js : JSValue → FetchError

inductive FetchResult where
  | ok : JSValue → FetchResult
  | thrown : FetchError → FetchResult

/-- Whether a fetch invocation resolved (rather than rejected). -/
def resolvesOk : FetchResult → Bool
  | FetchResult.ok _ => true
  | _ => false

/-- Model of this.fetch(address, method, body): precondition checks at lines
185-186, then push an abort timer, await the transport, clear the timer on
the resolve path, parse the body; every raised error is rethrown unchanged by
the catch block.  The address plays no role in the control flow and is
omitted; the returned registry is the this.timers array after the call. -/
def fetch (timeoutMs : Nat) (method body : JSValue) (trans : TransportEvent)
    (timers : List TimerStatus) : FetchResult × List TimerStatus :=
  if is.string method = false then
    (FetchResult.thrown (FetchError.invalid "Invalid parameter: expected string"), timers)
  else if is.json body = false then
    (FetchResult.thrown (FetchError.invalid "Invalid parameter: expected object"), timers)
  else
    let timeout := timers.length
    let t1 := timers ++ [TimerStatus.armed]
    match trans with
    | TransportEvent.completes after r =>
      if after ≤ timeoutMs then
        let t2 := t1.set timeout TimerStatus.cleared
        (match r with
         | Except.ok data => (FetchResult.ok data, t2)
         | Except.error e => (FetchResult.thrown (FetchError.js e), t2))
      else (FetchResult.thrown FetchError.abortError, t1.set timeout TimerStatus.fired)
    | TransportEvent.fails after e =>
      if after ≤ timeoutMs then (FetchResult.thrown (FetchError.js e), t1)
      else (FetchResult.thrown FetchError.abortError, t1.set timeout TimerStatus.fired)

/-! ## The stopwatch (src/index.js lines 71-81)

process.hrtime readings are modelled as total nanosecond counts; the stored
timestamp field is such a count.  process.hrtime(prev) returns the
componentwise difference now - prev, and the stop method ASSIGNS that
difference back into the timestamp field before returning it in fractional
seconds. -/

namespace Timer

/-- Model of the constructor: the timestamp is the hrtime reading at
construction. -/
def init (now : Nat) : Nat := now

/-- Model of this.start: re-baselines the timestamp to the current reading. -/
def start (now _ts : Nat) : Nat := now

/-- Model of this.reset: identical to start. -/
def reset (now _ts : Nat) : Nat := now

/-- Model of this.stop: overwrites the timestamp with process.hrtime(old
timestamp) = now - old, and returns that difference in seconds as a
fraction.  First component: the new timestamp field; second: the returned
value. -/
def stop (now ts : Nat) : Nat × ℚ :=
  (now - ts, ((now - ts : Nat) : ℚ) / 1000000000)

end Timer

/-! ## trim and untrim (src/index.js lines 83-101) -/

/-- Model of the regex character class backslash-s on the characters in
scope: space, tab, newline, carriage return, vertical tab, form feed. -/
def isJsSpace (c : Char) : Bool :=
  c = ' ' || c = '\t' || c = '\n' || c = '\r' || c = '\x0b' || c = '\x0c'

/-- Model of message.replace on character lists: strip the leading whitespace
run, then the trailing whitespace run. -/
def trimCL (s : List Char) : List Char :=
  ((s.dropWhile isJsSpace).reverse.dropWhile isJsSpace).reverse

/-- Model of this.trim. -/
def trim (message : String) : String := String.mk (trimCL message.data)

/-- Model of this.untrim: one space, the trimmed message, one space. -/
def untrim (message : String) : String := " " ++ trim message ++ " "

/-- Predicate for the claim that a string begins and ends with exactly one
space: its leading run of spaces and its trailing run of spaces both have
length one. -/
def beginsEndsWithOneSpace (u : String) : Prop :=
  (u.data.takeWhile fun c => c = ' ').length = 1 ∧
  (u.data.reverse.takeWhile fun c => c = ' ').length = 1

/-! ## The logger level (src/index.js lines 135-174)

Of the log procedure only what the exit claim needs is modelled: the level
actually used for the emitted record.  A message that is neither a plain
object nor an array is wrapped into a one-element array, and if it is
error-like the type is forced to "error"; the switch then dispatches on the
type, defaulting to info. -/

inductive LogLevel where
  | info : LogLevel
  | debug : LogLevel
  | error : LogLevel
  deriving DecidableEq

/-- Level at which this.log(message, type) emits. -/
def logEffectiveLevel (message : JSValue) (type : Option LogLevel) : LogLevel :=
  let type1 :=
    if is.object message = false && is.array message = false then
      (if is.error message = true then some LogLevel.error else type)
    else type
  match type1 with
  | some l => l
  | none => LogLevel.info

/-! ## The lifecycle controller (src/index.js lines 212-223) -/

/-- Message carried by new Error(value): the ToString of the argument, empty
for undefined. -/
def newErrorMessage (v : JSValue) : String :=
  match v with
  | JSValue.undefined => ""
  | v => jsToString v

/-- Observable effect of this.exit. -/
structure ExitEffect where
  loggedMessage : JSValue
  loggedLevel : LogLevel
  exitCode : Nat

/-- Model of this.exit(message): coerce a non-error into new Error(message),
log it (with no explicit type), clearTimeout every handle of the registry in
order, then process.exit(1).  Returns the effect and the registry after the
sweep. -/
def exit (message : JSValue) (timers : List TimerStatus) :
    ExitEffect × List TimerStatus :=
  let m := if is.error message = true then message
           else JSValue.errObj (newErrorMessage message) JSProps.nil
  (⟨m, logEffectiveLevel m none, 1⟩, timers.map clearTimeoutStatus)

/-! ## The UUID helper (src/index.js lines 57-69)

uuid/v5 is an external deterministic hash from a name and a namespace to an
identifier string; it is a parameter here.  uuid.DNS is the fixed DNS
namespace constant.  The name hashed is JSON.stringify of the
process.hrtime() reading, a two-element array of numbers.  (The catch branch
returning false is unreachable for string inputs and is not modelled.) -/

/-- The uuid.DNS namespace constant. -/
def dnsNamespace : String := "6ba7b810-9dad-11d1-80b4-00c04fd430c8"

/-- JSON.stringify of an hrtime reading [seconds, nanoseconds]. -/
def hrtimeJson (hr : Nat × Nat) : String :=
  match jsonStringify (JSValue.arr (JSList.cons (JSValue.num (hr.1 : Int))
      (JSList.cons (JSValue.num (hr.2 : Int)) JSList.nil))) with
  | some s => s
  | none => "undefined"

/-- Model of this.UUID for a given uuid v5 hash and hrtime reading. -/
def UUID (uuid5 : String → String → String) (hr : Nat × Nat) : String :=
  let ns := uuid5 "nl.mediaserve.common" dnsNamespace
  uuid5 (hrtimeJson hr) ns

end Service

namespace Database

/-! ## The query executor (src/index.js lines 366-374)

The pooled connection is an external collaborator: one invocation of
connection.query(\x7bsql, timeout\x7d) either resolves with a row collection or
rejects with a cause value. -/

inductive QueryOutcome where
  | rows : List JSValue → QueryOutcome
  | failure : JSValue → QueryOutcome

/-- Message of the Error thrown by this.execute on failure: the fixed prefix
followed by JSON.stringify(&#123;sql: query, error: cause&#125;). -/
def queryFailureMessage (query : String) (cause : JSValue) : String :=
  "Unable to execute database query: " ++
    (match jsonStringify (JSValue.obj (JSProps.cons "sql" (JSValue.str query)
        (JSProps.cons "error" cause JSProps.nil))) with
     | some s => s
     | none => "undefined")

/-- Model of this.execute(connection, query): run the statement with the
configured timeout; on success copy the results into a fresh array in index
order (the for..in loop); on failure throw a new Error embedding the
statement and the JSON.stringify of the cause. -/
def execute (timeoutMs : Nat) (connQuery : String → Nat → QueryOutcome)
    (query : String) : Except String (List JSValue) :=
  match connQuery query timeoutMs with
  | QueryOutcome.rows results =>
    Except.ok (results.foldl (fun array row => array ++ [row]) [])
  | QueryOutcome.failure error =>
    Except.error (queryFailureMessage query error)

end Database

/-! ## Derived notions used in the claim statements -/

namespace Service

/-- State of the handle armed by one fetch invocation once the call has
settled, as a function of the transport event: cleared when the transport
resolved in time, still armed when the transport failed in time (clearTimeout
is unreachable on that path), fired when the abort timer won. -/
def timerOutcome (timeoutMs : Nat) : TransportEvent → TimerStatus
  | TransportEvent.completes after _ =>
    if after ≤ timeoutMs then TimerStatus.cleared else TimerStatus.fired
  | TransportEvent.fails after _ =>
    if after ≤ timeoutMs then TimerStatus.armed else TimerStatus.fired

end Service

/-! ## General helper lemmas -/

/-- Setting the element just past a list inside an appended singleton. -/
theorem listSetLast {α : Type} (l : List α) (a b : α) :
    (l ++ [a]).set l.length b = l ++ [b] := by
  induction l with
  | nil => rfl
  | cons x xs ih => simp [List.set, ih]

/-- Folding push over a list copies it in order onto the accumulator. -/
theorem listFoldlPush {α : Type} (l acc : List α) :
    l.foldl (fun array row => array ++ [row]) acc = acc ++ l := by
  induction l generalizing acc with
  | nil => simp
  | cons x xs ih => simp [List.foldl, ih]

/-- After a clearTimeout sweep no handle is armed. -/
theorem mapClearNotArmed (timers : List TimerStatus) :
    ((timers.map clearTimeoutStatus).all fun e => !(e == TimerStatus.armed)) = true := by
  induction timers with
  | nil => rfl
  | cons t ts ih => cases t <;> simp_all [clearTimeoutStatus]

/-! ## Claim C5 -/

/-- Claim C5: a fetch invocation whose method is not a string, or whose body
does not pass the JSON-validity precondition, rejects immediately with the
InvalidArgument error thrown at lines 185-186, before any timer is armed and
before any transport activity, leaving the registry unchanged (the conclusion
holds for every transport event and the registry is returned as it was). -/
theorem fetch_precondition_invalid_argument (timeoutMs : Nat) (method body : JSValue)
    (trans : Service.TransportEvent) (timers : List TimerStatus)
    (h : Service.is.string method = false ∨ Service.is.json body = false) :
    Service.fetch timeoutMs method body trans timers =
      (Service.FetchResult.thrown (Service.FetchError.invalid
        (if Service.is.string method = true then "Invalid parameter: expected object"
         else "Invalid parameter: expected string")), timers) := by
  rcases h with h | h
  · simp [Service.fetch, h]
  · cases hm : Service.is.string method <;> simp [Service.fetch, h, hm]

/-- Witness for C5 at the body of the spec scenario: the literal text
"&#123;invalid json" (opening brace spelled out) is not valid JSON, so the call
rejects with the expected-object error and the empty registry is unchanged. -/
theorem fetch_precondition_invalid_argument_witness :
    Service.fetch 30000 (JSValue.str "POST") (JSValue.str "\x7binvalid json")
      (Service.TransportEvent.completes 1 (Except.ok JSValue.null)) [] =
    (Service.FetchResult.thrown
      (Service.FetchError.invalid "Invalid parameter: expected object"), []) := by
  have h := fetch_precondition_invalid_argument 30000 (JSValue.str "POST")
    (JSValue.str "\x7binvalid json")
    (Service.TransportEvent.completes 1 (Except.ok JSValue.null)) []
    (Or.inr (by decide))
  simpa [Service.is.string] using h

/-! ## Claim C6 -/

/-- Claim C6 counterexample: with a string method and the body argument
absent (undefined), the precondition check does NOT pass: JSON.parse coerces
undefined to the text "undefined", which is not valid JSON, so is.json is
false and the call rejects with the InvalidArgument error of line 186. -/
theorem fetch_absent_body_rejected_counterexample :
    Service.fetch 30000 (JSValue.str "GET") JSValue.undefined
      (Service.TransportEvent.completes 1 (Except.ok JSValue.null)) [] =
    (Service.FetchResult.thrown
      (Service.FetchError.invalid "Invalid parameter: expected object"), []) := rfl

/-- Claim C6 (amended): a fetch invocation with a string method and an absent
body always rejects with the InvalidArgument error of line 186, for every
transport event, leaving the registry unchanged: the body precondition is
applied unconditionally, and an absent body fails it. -/
theorem fetch_absent_body_rejects (timeoutMs : Nat) (method : JSValue)
    (trans : Service.TransportEvent) (timers : List TimerStatus)
    (h : Service.is.string method = true) :
    Service.fetch timeoutMs method JSValue.undefined trans timers =
      (Service.FetchResult.thrown
        (Service.FetchError.invalid "Invalid parameter: expected object"), timers) := by
  have hj : Service.is.json JSValue.undefined = false := by decide
  simp [Service.fetch, h, hj]

/-- Witness for the amended C6 at a concrete call. -/
theorem fetch_absent_body_rejects_witness :
    Service.fetch 30000 (JSValue.str "GET") JSValue.undefined
      (Service.TransportEvent.fails 2 (JSValue.errObj "socket hang up" JSProps.nil))
      [TimerStatus.cleared] =
    (Service.FetchResult.thrown
      (Service.FetchError.invalid "Invalid parameter: expected object"),
     [TimerStatus.cleared]) :=
  fetch_absent_body_rejects 30000 (JSValue.str "GET")
    (Service.TransportEvent.fails 2 (JSValue.errObj "socket hang up" JSProps.nil))
    [TimerStatus.cleared] rfl

/-! ## Claim C7 -/

/-- Claim C7: when the underlying connection call resolves with a row
collection, execute returns exactly those rows in the order produced, with
nothing reordered, dropped or added (the for..in copy loop is the identity on
the row sequence). -/
theorem execute_returns_rows_in_order (timeoutMs : Nat)
    (connQuery : String → Nat → Database.QueryOutcome) (query : String)
    (rs : List JSValue)
    (h : connQuery query timeoutMs = Database.QueryOutcome.rows rs) :
    Database.execute timeoutMs connQuery query = Except.ok rs := by
  simp [Database.execute, h, listFoldlPush]

/-- Witness for C7 at the spec scenario: a connection returning the single
row &#123;1:1&#125; yields exactly that one-element sequence. -/
theorem execute_returns_rows_in_order_witness :
    Database.execute 120000
      (fun _ _ => Database.QueryOutcome.rows
        [JSValue.obj (JSProps.cons "1" (JSValue.num 1) JSProps.nil)])
      "SELECT 1" =
    Except.ok [JSValue.obj (JSProps.cons "1" (JSValue.num 1) JSProps.nil)] :=
  execute_returns_rows_in_order 120000
    (fun _ _ => Database.QueryOutcome.rows
      [JSValue.obj (JSProps.cons "1" (JSValue.num 1) JSProps.nil)])
    "SELECT 1"
    [JSValue.obj (JSProps.cons "1" (JSValue.num 1) JSProps.nil)] rfl

/-! ## Claim C8 -/

/-- Claim C8: for every argument and registry state, exit coerces a
non-error message into an error-like value (the logged message always
satisfies is.error), the log call emits at error level (the error-detection
branch of log forces the type), every handle of the registry is swept with
clearTimeout so none remains armed, and the process terminates with exit
code 1. -/
theorem exit_contract (message : JSValue) (timers : List TimerStatus) :
    Service.is.error (Service.exit message timers).1.loggedMessage = true ∧
    (Service.exit message timers).1.loggedLevel = Service.LogLevel.error ∧
    (Service.exit message timers).1.exitCode = 1 ∧
    ((Service.exit message timers).2.all fun e => !(e == TimerStatus.armed)) = true := by
  refine ⟨?_, ?_, rfl, mapClearNotArmed timers⟩ <;>
    cases message <;>
      simp [Service.exit, Service.is.error, Service.logEffectiveLevel,
        Service.is.object, Service.is.array]

/-! ## Claim C3 -/

/-- Claim C3 counterexample: start (re-baseline) at reading 1, stop at
reading 10: the returned value is 9e-9 seconds, and stop has overwritten the
stored timestamp (now 9, no longer the baseline 1).  A second stop at reading
11, with no intervening reset or start, returns 2e-9 seconds, strictly
SMALLER than the first value: stop does reset the baseline (to the computed
difference) and repeated stop calls are not monotonically increasing. -/
theorem stopwatch_not_monotone_counterexample :
    (Service.Timer.stop 10 (Service.Timer.start 1 0)).1 ≠ Service.Timer.start 1 0 ∧
    (Service.Timer.stop 11 (Service.Timer.stop 10 (Service.Timer.start 1 0)).1).2 <
      (Service.Timer.stop 10 (Service.Timer.start 1 0)).2 := by
  refine ⟨by decide, ?_⟩
  norm_num [Service.Timer.stop, Service.Timer.start]

/-- Claim C3 (amended): stop returns the elapsed nanoseconds since the stored
timestamp as a non-negative fractional second count, but it OVERWRITES the
stored timestamp with that difference (so the baseline does not survive a
stop, and values returned by repeated stops are not monotone); start and
reset re-baseline the timestamp to the current reading. -/
theorem stopwatch_stop_behavior (now ts other : Nat) :
    (Service.Timer.stop now ts).1 = now - ts ∧
    0 ≤ (Service.Timer.stop now ts).2 ∧
    (Service.Timer.stop now ts).2 = ((now - ts : Nat) : ℚ) / 1000000000 ∧
    Service.Timer.start other ts = other ∧
    Service.Timer.reset other ts = other := by
  refine ⟨rfl, ?_, rfl, rfl, rfl⟩
  have h1 : (0 : ℚ) ≤ ((now - ts : Nat) : ℚ) := Nat.cast_nonneg _
  have h2 : (0 : ℚ) < 1000000000 := by norm_num
  exact div_nonneg h1 (le_of_lt h2)

/-! ## Claim C1 -/

/-- Claim C1 counterexample: a call whose transport would complete only after
30001 ms against a 30000 ms timeout does NOT resolve to a tagged
Aborted("timeout") outcome: the abort timer fires and the call REJECTS with
the AbortError rethrown by the catch block (resolvesOk is false), and the
fired handle is left in the registry. -/
theorem fetch_timeout_thrown_counterexample :
    Service.fetch 30000 (JSValue.str "GET") (JSValue.str "null")
      (Service.TransportEvent.completes 30001 (Except.ok JSValue.null)) [] =
      (Service.FetchResult.thrown Service.FetchError.abortError, [TimerStatus.fired]) ∧
    Service.resolvesOk (Service.fetch 30000 (JSValue.str "GET") (JSValue.str "null")
      (Service.TransportEvent.completes 30001 (Except.ok JSValue.null)) []).1 = false :=
  ⟨rfl, rfl⟩

/-- Claim C1 (amended): for every call that passes the precondition checks
and whose transport event occurs strictly after the configured timeout, the
call rejects with the AbortError raised by the aborted transport (not a
tagged outcome), and afterwards the handle armed for the call is in the fired
state: it is no longer armed, but it is never removed from the registry. -/
theorem fetch_timeout_aborts_with_fired_timer (timeoutMs : Nat) (method body : JSValue)
    (trans : Service.TransportEvent) (timers : List TimerStatus)
    (hm : Service.is.string method = true) (hb : Service.is.json body = true)
    (hlate : timeoutMs < Service.transAfter trans) :
    Service.fetch timeoutMs method body trans timers =
      (Service.FetchResult.thrown Service.FetchError.abortError,
       timers ++ [TimerStatus.fired]) := by
  cases trans with
  | completes after r =>
    have hgt : ¬ (after ≤ timeoutMs) := by
      simp only [Service.transAfter] at hlate; omega
    simp [Service.fetch, hm, hb, hgt, listSetLast]
  | fails after e =>
    have hgt : ¬ (after ≤ timeoutMs) := by
      simp only [Service.transAfter] at hlate; omega
    simp [Service.fetch, hm, hb, hgt, listSetLast]

/-- Witness for the amended C1 at a concrete late transport. -/
theorem fetch_timeout_aborts_with_fired_timer_witness :
    Service.fetch 30000 (JSValue.str "POST") (JSValue.str "null")
      (Service.TransportEvent.fails 40000 (JSValue.errObj "reset" JSProps.nil))
      [TimerStatus.cleared] =
    (Service.FetchResult.thrown Service.FetchError.abortError,
     [TimerStatus.cleared, TimerStatus.fired]) := by
  have h := fetch_timeout_aborts_with_fired_timer 30000 (JSValue.str "POST")
    (JSValue.str "null")
    (Service.TransportEvent.fails 40000 (JSValue.errObj "reset" JSProps.nil))
    [TimerStatus.cleared] (by decide) (by decide) (by decide)
  simpa using h

/-! ## Claim C2 -/

/-- Claim C2 counterexample: a successful call (transport resolves well
within the timeout) starting from an empty registry ends with a registry of
length one, not the starting length zero: the handle pushed at line 190 is
disarmed by clearTimeout but never removed from the this.timers array, so
the registry size does not return to its pre-call value even on the success
path. -/
theorem fetch_registry_size_counterexample :
    ¬ ((Service.fetch 30000 (JSValue.str "GET") (JSValue.str "null")
        (Service.TransportEvent.completes 1 (Except.ok JSValue.null)) []).2.length =
       ([] : List TimerStatus).length) := by decide

/-- Claim C2 (amended): for every call that passes the preconditions, the
registry after the call is the old registry plus exactly one slot for the
handle armed by this call, so its length always grows by one.  The final
state of that handle depends on the exit path: cleared when the transport
resolved within the timeout (the success and parse-failure paths, where
clearTimeout at line 192 runs), still ARMED when the transport failed within
the timeout (the catch path skips clearTimeout: a leak), and fired when the
timeout won the race. -/
theorem fetch_timer_registry_growth (timeoutMs : Nat) (method body : JSValue)
    (trans : Service.TransportEvent) (timers : List TimerStatus)
    (hm : Service.is.string method = true) (hb : Service.is.json body = true) :
    (Service.fetch timeoutMs method body trans timers).2 =
      timers ++ [Service.timerOutcome timeoutMs trans] ∧
    (Service.fetch timeoutMs method body trans timers).2.length =
      timers.length + 1 := by
  have hmain : (Service.fetch timeoutMs method body trans timers).2 =
      timers ++ [Service.timerOutcome timeoutMs trans] := by
    cases trans with
    | completes after r =>
      by_cases hle : after ≤ timeoutMs
      · cases r <;>
          simp [Service.fetch, Service.timerOutcome, hm, hb, hle, listSetLast]
      · simp [Service.fetch, Service.timerOutcome, hm, hb, hle, listSetLast]
    | fails after e =>
      by_cases hle : after ≤ timeoutMs
      · simp [Service.fetch, Service.timerOutcome, hm, hb, hle]
      · simp [Service.fetch, Service.timerOutcome, hm, hb, hle, listSetLast]
  refine ⟨hmain, ?_⟩
  rw [hmain]
  simp

/-- Witness for the amended C2 on the leaking path: an in-time transport
failure leaves the armed handle in the registry. -/
theorem fetch_timer_registry_growth_witness :
    (Service.fetch 30000 (JSValue.str "GET") (JSValue.str "null")
      (Service.TransportEvent.fails 5 (JSValue.errObj "refused" JSProps.nil))
      []).2 = [TimerStatus.armed] ∧
    (Service.fetch 30000 (JSValue.str "GET") (JSValue.str "null")
      (Service.TransportEvent.fails 5 (JSValue.errObj "refused" JSProps.nil))
      []).2.length = 1 := by
  have h := fetch_timer_registry_growth 30000 (JSValue.str "GET") (JSValue.str "null")
    (Service.TransportEvent.fails 5 (JSValue.errObj "refused" JSProps.nil))
    [] (by decide) (by decide)
  simpa [Service.timerOutcome] using h

/-! ## Claim C10: helper lemmas about whitespace stripping -/

/-- The head of a dropWhile result does not satisfy the predicate. -/
theorem dropWhileHeadNot (p : Char → Bool) (l : List Char) (c : Char)
    (h : (l.dropWhile p).head? = some c) : p c = false := by
  induction l with
  | nil => simp [List.dropWhile] at h
  | cons x xs ih =>
    by_cases hp : p x = true
    · rw [List.dropWhile_cons, if_pos hp] at h
      exact ih h
    · rw [List.dropWhile_cons, if_neg hp] at h
      simp only [List.head?_cons, Option.some.injEq] at h
      subst h
      exact Bool.eq_false_iff.mpr hp

/-- dropWhile is the identity when the head does not satisfy the
predicate. -/
theorem dropWhileEqSelf (p : Char → Bool) (l : List Char)
    (h : ∀ c, l.head? = some c → p c = false) : l.dropWhile p = l := by
  cases l with
  | nil => rfl
  | cons x xs =>
    have hx := h x rfl
    rw [List.dropWhile_cons, if_neg (by simp [hx])]

/-- Bridge: the character data of a string append. -/
theorem strDataAppend (a b : String) : (a ++ b).data = a.data ++ b.data := rfl

/-- The head of a trimmed character list is not whitespace. -/
theorem trimHeadNotSpace (s : List Char) (c : Char)
    (h : (Service.trimCL s).head? = some c) : Service.isJsSpace c = false := by
  unfold Service.trimCL at h
  rw [List.head?_reverse] at h
  obtain ⟨pre, hpre⟩ :=
    List.dropWhile_suffix (l := (s.dropWhile Service.isJsSpace).reverse)
      (p := Service.isJsSpace)
  have hne : (s.dropWhile Service.isJsSpace).reverse.dropWhile Service.isJsSpace ≠ [] := by
    intro hnil
    rw [hnil] at h
    simp at h
  have h2 : ((s.dropWhile Service.isJsSpace).reverse).getLast? = some c := by
    conv_lhs => rw [← hpre]
    rw [List.getLast?_append_of_ne_nil pre hne]
    exact h
  rw [List.getLast?_reverse] at h2
  exact dropWhileHeadNot Service.isJsSpace s c h2

/-- The last character of a trimmed character list is not whitespace. -/
theorem trimLastNotSpace (s : List Char) (c : Char)
    (h : (Service.trimCL s).getLast? = some c) : Service.isJsSpace c = false := by
  unfold Service.trimCL at h
  rw [List.getLast?_reverse] at h
  exact dropWhileHeadNot Service.isJsSpace _ c h

/-- Trimming a string that is one space, then a list with non-space head and
non-space last character, then one space, recovers exactly that list. -/
theorem trimOfWrapped (t : List Char)
    (h1 : ∀ c, t.head? = some c → Service.isJsSpace c = false)
    (h2 : ∀ c, t.getLast? = some c → Service.isJsSpace c = false) :
    Service.trimCL (' ' :: (t ++ [' '])) = t := by
  cases t with
  | nil => rfl
  | cons x xs =>
    have hsp : Service.isJsSpace ' ' = true := rfl
    have hx : Service.isJsSpace x = false := h1 x rfl
    unfold Service.trimCL
    rw [List.dropWhile_cons, if_pos hsp]
    rw [dropWhileEqSelf Service.isJsSpace ((x :: xs) ++ [' '])
      (by intro c hc; simp only [List.cons_append, List.head?_cons,
            Option.some.injEq] at hc; subst hc; exact hx)]
    rw [show ((x :: xs) ++ [' ']).reverse = ' ' :: (x :: xs).reverse by simp]
    rw [List.dropWhile_cons, if_pos hsp]
    rw [dropWhileEqSelf Service.isJsSpace (x :: xs).reverse
      (by intro c hc; rw [List.head?_reverse] at hc; exact h2 c hc)]
    exact List.reverse_reverse _

/-- Character data of an untrimmed string: one space, the trimmed data, one
space. -/
theorem untrimData (s : String) :
    (Service.untrim s).data = ' ' :: (Service.trimCL s.data ++ [' ']) := by
  show ((" " ++ Service.trim s) ++ " ").data = _
  rw [strDataAppend, strDataAppend]
  simp [Service.trim]

/-- Trimming after untrimming recovers the plain trim. -/
theorem trimUntrimEq (s : String) :
    Service.trim (Service.untrim s) = Service.trim s := by
  show String.mk (Service.trimCL (Service.untrim s).data) = _
  rw [untrimData]
  show String.mk _ = String.mk _
  congr 1
  exact trimOfWrapped (Service.trimCL s.data)
    (fun c hc => trimHeadNotSpace s.data c hc)
    (fun c hc => trimLastNotSpace s.data c hc)

/-- untrim is idempotent. -/
theorem untrimIdem (s : String) :
    Service.untrim (Service.untrim s) = Service.untrim s := by
  show " " ++ Service.trim (Service.untrim s) ++ " " = Service.untrim s
  rw [trimUntrimEq]
  rfl

/-- A space, then a list with a non-space head, then a space, has a leading
space run of length exactly one. -/
theorem takeWhileSpaceOne (l : List Char) (c : Char) (hc : l.head? = some c)
    (hcs : ¬ (c = ' ')) :
    ((' ' :: (l ++ [' '])).takeWhile fun d => d = ' ').length = 1 := by
  cases l with
  | nil => simp at hc
  | cons x xs =>
    simp only [List.head?_cons, Option.some.injEq] at hc
    subst hc
    simp [List.takeWhile_cons, hcs]

/-- When the trimmed payload is non-empty, the untrimmed string begins and
ends with exactly one space. -/
theorem untrimOneSpace (s : String) (h : Service.trimCL s.data ≠ []) :
    Service.beginsEndsWithOneSpace (Service.untrim s) := by
  have hhead : ∃ c, (Service.trimCL s.data).head? = some c := by
    cases ht : Service.trimCL s.data with
    | nil => exact absurd ht h
    | cons x xs => exact ⟨x, rfl⟩
  have hlast : ∃ c, (Service.trimCL s.data).getLast? = some c := by
    have hs : (Service.trimCL s.data).getLast?.isSome := List.getLast?_isSome.mpr h
    exact Option.isSome_iff_exists.mp hs
  obtain ⟨c1, hc1⟩ := hhead
  obtain ⟨c2, hc2⟩ := hlast
  have hns1 : ¬ (c1 = ' ') := by
    intro he
    have hs := trimHeadNotSpace s.data c1 hc1
    rw [he] at hs
    exact absurd hs (by decide)
  have hns2 : ¬ (c2 = ' ') := by
    intro he
    have hs := trimLastNotSpace s.data c2 hc2
    rw [he] at hs
    exact absurd hs (by decide)
  constructor
  · rw [untrimData]
    exact takeWhileSpaceOne _ c1 hc1 hns1
  · rw [untrimData]
    rw [show (' ' :: (Service.trimCL s.data ++ [' '])).reverse =
          ' ' :: ((Service.trimCL s.data).reverse ++ [' ']) by simp]
    exact takeWhileSpaceOne _ c2 (by rw [List.head?_reverse]; exact hc2) hns2

/-! ## Claim C10 -/

/-- Claim C10 counterexample: untrimming the empty string gives two spaces,
which does not begin (nor end) with exactly ONE space: the leading space run
has length two.  The claim that untrim(s) always begins and ends with
exactly one space therefore fails at s = "". -/
theorem untrim_empty_counterexample :
    Service.untrim "" = "  " ∧
    ¬ Service.beginsEndsWithOneSpace (Service.untrim "") :=
  ⟨rfl, fun h => absurd h.1 (by decide)⟩

/-- Claim C10 (amended): for every string s, trim(untrim(s)) = trim(s) and
untrim(untrim(s)) = untrim(s); and whenever the trimmed payload is non-empty
(s is not all whitespace), untrim(s) begins and ends with exactly one space.
For all-whitespace s the wrapped string is two spaces, so the one-space
property holds only under that proviso. -/
theorem trim_untrim_laws (s : String) :
    Service.trim (Service.untrim s) = Service.trim s ∧
    Service.untrim (Service.untrim s) = Service.untrim s ∧
    ((Service.trim s).data ≠ [] → Service.beginsEndsWithOneSpace (Service.untrim s)) := by
  refine ⟨trimUntrimEq s, untrimIdem s, fun h => untrimOneSpace s ?_⟩
  simpa [Service.trim] using h

/-- Witness for the amended C10 at a concrete string with payload. -/
theorem trim_untrim_laws_witness :
    Service.trim (Service.untrim " a ") = Service.trim " a " ∧
    Service.untrim (Service.untrim " a ") = Service.untrim " a " ∧
    Service.beginsEndsWithOneSpace (Service.untrim " a ") := by
  obtain ⟨h1, h2, h3⟩ := trim_untrim_laws " a "
  exact ⟨h1, h2, h3 (by decide)⟩

/-! ## Claim C4: helper lemmas about the failure message -/

/-- Escaping is the identity on a list with no escapable characters. -/
theorem escapeListEqSelf (l : List Char) (h : ∀ c ∈ l, needsEscape c = false) :
    escapeList l = l := by
  induction l with
  | nil => rfl
  | cons c cs ih =>
    have hc := h c (by simp)
    have hone : escapeChar c = [c] := by
      simp only [needsEscape, Bool.or_eq_false_iff, decide_eq_false_iff_not] at hc
      obtain ⟨⟨⟨⟨h1, h2⟩, h3⟩, h4⟩, h5⟩ := hc
      simp [escapeChar, h1, h2, h3, h4, h5]
    rw [escapeList, hone, ih (fun d hd => h d (by simp [hd]))]
    rfl

/-- Quoting a string free of escapable characters just wraps it in double
quotes. -/
theorem jsonQuoteEqSelf (s : String) (h : ∀ c ∈ s.data, needsEscape c = false) :
    jsonQuote s = "\"" ++ s ++ "\"" := by
  unfold jsonQuote
  rw [escapeListEqSelf s.data h]

/-- An infix of the right part is an infix of an append. -/
theorem infixAppendLeft {α : Type} (l a b : List α) (h : l <:+: b) :
    l <:+: a ++ b := by
  obtain ⟨s, t, hst⟩ := h
  exact ⟨a ++ s, t, by rw [← hst]; simp⟩

/-- An infix of the left part is an infix of an append. -/
theorem infixAppendRight {α : Type} (l a b : List α) (h : l <:+: a) :
    l <:+: a ++ b := by
  obtain ⟨s, t, hst⟩ := h
  exact ⟨s, t ++ b, by rw [← hst]; simp⟩

/-! ## Claim C4 -/

set_option maxRecDepth 8000 in
/-- Claim C4 counterexample: against a connection that rejects with an Error
instance carrying the message "table not found", execute rejects with a
message whose embedded cause is the JSON serialisation of the Error, which is
"&#123;&#125;" because an Error message is a non-enumerable property that
JSON.stringify skips; the resulting message does NOT contain the cause text
"table not found" (the statement text is embedded, the cause message is
lost). -/
theorem execute_error_cause_swallowed_counterexample :
    Database.execute 120000
      (fun _ _ => Database.QueryOutcome.failure
        (JSValue.errObj "table not found" JSProps.nil))
      "SELECT * FROM missing" =
      Except.error
        "Unable to execute database query: \x7b\"sql\":\"SELECT * FROM missing\",\"error\":\x7b\x7d\x7d" ∧
    ¬ (("table not found" : String).data <:+:
        ("Unable to execute database query: \x7b\"sql\":\"SELECT * FROM missing\",\"error\":\x7b\x7d\x7d" : String).data) := by
  constructor
  · rfl
  · decide

set_option maxRecDepth 8000 in
/-- Claim C4 (amended): when the underlying connection call rejects, execute
rejects with an error whose message is the fixed prefix followed by
JSON.stringify of an object holding the statement text and the cause.  When
the cause is a STRING (free of escapable characters, as is the statement),
the message embeds both the statement text and the cause text verbatim; an
Error-instance cause, by contrast, serialises to its enumerable properties
only, so its message is not embedded (see the counterexample). -/
theorem execute_failure_embeds_string_cause (timeoutMs : Nat)
    (connQuery : String → Nat → Database.QueryOutcome) (query cause : String)
    (h : connQuery query timeoutMs =
      Database.QueryOutcome.failure (JSValue.str cause))
    (hq : ∀ c ∈ query.data, needsEscape c = false)
    (hc : ∀ c ∈ cause.data, needsEscape c = false) :
    Database.execute timeoutMs connQuery query =
      Except.error (Database.queryFailureMessage query (JSValue.str cause)) ∧
    ("Unable to execute database query:" : String).data <:+:
      (Database.queryFailureMessage query (JSValue.str cause)).data ∧
    query.data <:+: (Database.queryFailureMessage query (JSValue.str cause)).data ∧
    cause.data <:+: (Database.queryFailureMessage query (JSValue.str cause)).data := by
  refine ⟨by simp [Database.execute, h], ?_, ?_, ?_⟩ <;>
    · simp only [Database.queryFailureMessage, jsonStringify, jsonProps, joinComma,
        jsonQuoteEqSelf query hq, jsonQuoteEqSelf cause hc,
        strDataAppend, List.append_assoc]
      repeat
        first
        | exact infixAppendRight _ _ _ (List.infix_refl _)
        | exact infixAppendRight _ _ _ (by decide)
        | apply infixAppendLeft

/-- Witness for the amended C4 at the spec scenario inputs. -/
theorem execute_failure_embeds_string_cause_witness :
    Database.execute 120000
      (fun _ _ => Database.QueryOutcome.failure (JSValue.str "table not found"))
      "SELECT * FROM missing" =
      Except.error (Database.queryFailureMessage "SELECT * FROM missing"
        (JSValue.str "table not found")) ∧
    ("table not found" : String).data <:+:
      (Database.queryFailureMessage "SELECT * FROM missing"
        (JSValue.str "table not found")).data := by
  obtain ⟨h1, _, _, h4⟩ := execute_failure_embeds_string_cause 120000
    (fun _ _ => Database.QueryOutcome.failure (JSValue.str "table not found"))
    "SELECT * FROM missing" "table not found" rfl (by decide) (by decide)
  exact ⟨h1, h4⟩

/-! ## Claim C9: injectivity of the hashed name -/

/-- The fueled digit loop agrees with the base-10 digits of n (rendered most
significant first) whenever the fuel dominates n. -/
theorem natDecAuxDigits (fuel : Nat) : ∀ (n : Nat) (acc : List Char), n ≠ 0 → n ≤ fuel →
    natDecAux fuel n acc = ((Nat.digits 10 n).map natDigitChar).reverse ++ acc := by
  induction fuel with
  | zero => intro n acc h0 hle; omega
  | succ f ih =>
    intro n acc h0 hle
    simp only [natDecAux]
    by_cases hdiv : n / 10 = 0
    · rw [if_pos hdiv, Nat.digits_def' (by norm_num : (1 : Nat) < 10)
        (Nat.pos_of_ne_zero h0), hdiv, Nat.digits_zero]
      simp
    · rw [if_neg hdiv]
      have hlt : n / 10 < n := Nat.div_lt_self (Nat.pos_of_ne_zero h0) (by norm_num)
      rw [ih (n / 10) _ hdiv (by omega)]
      rw [Nat.digits_def' (by norm_num : (1 : Nat) < 10) (Nat.pos_of_ne_zero h0)]
      simp [List.append_assoc]

/-- Decimal rendering of a positive number via Nat.digits. -/
theorem natDecEq (n : Nat) (h : n ≠ 0) :
    natDec n = ((Nat.digits 10 n).map natDigitChar).reverse := by
  unfold natDec
  rw [natDecAuxDigits (n + 1) n [] h (by omega)]
  simp

/-- Numeric value of a digit character. -/
def digitVal (c : Char) : Nat := c.toNat - 48

/-- digitVal inverts natDigitChar on base-10 digits. -/
theorem digitValDigitChar (d : Nat) (h : d < 10) :
    digitVal (natDigitChar d) = d := by
  interval_cases d <;> rfl

/-- Digit characters are never a comma. -/
theorem natDigitCharNeComma (d : Nat) (h : d < 10) : natDigitChar d ≠ ',' := by
  interval_cases d <;> decide

/-- The rendering of a positive number is never the rendering of zero. -/
theorem natDecNeZeroRender (n : Nat) (hn : n ≠ 0) : natDec n ≠ natDec 0 := by
  intro h
  rw [natDecEq n hn] at h
  have h0 : natDec 0 = ['0'] := rfl
  rw [h0] at h
  have h1 : (Nat.digits 10 n).map natDigitChar = ['0'] := by
    have := congrArg List.reverse h
    simpa using this
  have hlen : (Nat.digits 10 n).length = 1 := by
    have := congrArg List.length h1
    simpa using this
  obtain ⟨d, hd⟩ := List.length_eq_one.mp hlen
  have hd10 : d < 10 := Nat.digits_lt_base (by norm_num) (by rw [hd]; simp)
  have hchar : natDigitChar d = '0' := by
    rw [hd] at h1
    simpa using h1
  have hdz : d = 0 := by
    have h2 := digitValDigitChar d hd10
    rw [hchar] at h2
    simpa [digitVal] using h2.symm
  have hnd : n = d := by
    have h3 := Nat.ofDigits_digits 10 n
    rw [hd] at h3
    simpa [Nat.ofDigits] using h3.symm
  exact hn (by omega)

/-- Decimal rendering is injective. -/
theorem natDecInj (m n : Nat) (h : natDec m = natDec n) : m = n := by
  by_cases hm : m = 0 <;> by_cases hn : n = 0
  · omega
  · subst hm
    exact absurd h.symm (natDecNeZeroRender n hn)
  · subst hn
    exact absurd h (natDecNeZeroRender m hm)
  · rw [natDecEq m hm, natDecEq n hn] at h
    have h1 : (Nat.digits 10 m).map natDigitChar = (Nat.digits 10 n).map natDigitChar := by
      have := congrArg List.reverse h
      simpa using this
    have key : ∀ k : Nat, ((Nat.digits 10 k).map natDigitChar).map digitVal =
        Nat.digits 10 k := by
      intro k
      rw [List.map_map]
      calc (Nat.digits 10 k).map (digitVal ∘ natDigitChar)
          = (Nat.digits 10 k).map id :=
            List.map_congr_left (fun d hd =>
              digitValDigitChar d (Nat.digits_lt_base (by norm_num) hd))
        _ = Nat.digits 10 k := List.map_id _
    have h2 : Nat.digits 10 m = Nat.digits 10 n := by
      rw [← key m, ← key n, h1]
    exact Nat.digits.injective 10 h2

/-- The rendering of a number contains no comma. -/
theorem natDecNoComma (n : Nat) : ∀ c ∈ natDec n, c ≠ ',' := by
  by_cases h : n = 0
  · subst h
    intro c hc
    have h0 : natDec 0 = ['0'] := rfl
    rw [h0] at hc
    simp only [List.mem_singleton] at hc
    subst hc
    decide
  · rw [natDecEq n h]
    intro c hc
    simp only [List.mem_reverse, List.mem_map] at hc
    obtain ⟨d, hd, rfl⟩ := hc
    exact natDigitCharNeComma d (Nat.digits_lt_base (by norm_num) hd)

/-- Splitting an append at a comma is unambiguous when neither left part
contains a comma. -/
theorem appendCommaInj : ∀ (A C B D : List Char),
    (∀ c ∈ A, c ≠ ',') → (∀ c ∈ C, c ≠ ',') →
    A ++ ',' :: B = C ++ ',' :: D → A = C ∧ B = D := by
  intro A
  induction A with
  | nil =>
    intro C B D _ hC h
    cases C with
    | nil => simpa using h
    | cons x xs =>
      simp only [List.nil_append, List.cons_append, List.cons.injEq] at h
      exact absurd h.1.symm (hC x (by simp))
  | cons a as ih =>
    intro C B D hA hC h
    cases C with
    | nil =>
      simp only [List.nil_append, List.cons_append, List.cons.injEq] at h
      exact absurd h.1 (hA a (by simp))
    | cons x xs =>
      simp only [List.cons_append, List.cons.injEq] at h
      obtain ⟨h1, h2⟩ := h
      obtain ⟨hh1, hh2⟩ := ih xs B D (fun c hc => hA c (by simp [hc]))
        (fun c hc => hC c (by simp [hc])) h2
      exact ⟨by rw [h1, hh1], hh2⟩

/-- The JavaScript ToString of a cast natural number. -/
theorem intDecOfNat (n : Nat) : intDec (n : Int) = natDecS n := by
  unfold intDec
  rw [if_neg (by exact Int.not_lt.mpr (Int.natCast_nonneg n))]
  simp

/-- Character data of the hashed hrtime name. -/
theorem hrtimeJsonData (a b : Nat) :
    (Service.hrtimeJson (a, b)).data =
      '[' :: (natDec a ++ (',' :: (natDec b ++ [']']))) := by
  have h1 : Service.hrtimeJson (a, b) =
      "[" ++ (intDec (a : Int) ++ "," ++ intDec (b : Int)) ++ "]" := by
    simp [Service.hrtimeJson, jsonStringify, jsonElems, joinComma]
  rw [h1, intDecOfNat, intDecOfNat]
  simp only [strDataAppend, List.append_assoc]
  rfl

/-- The hashed hrtime name is injective in the reading. -/
theorem hrtimeJsonInj (t1 t2 : Nat × Nat)
    (h : Service.hrtimeJson t1 = Service.hrtimeJson t2) : t1 = t2 := by
  obtain ⟨a, b⟩ := t1
  obtain ⟨c, d⟩ := t2
  have hd := congrArg String.data h
  rw [hrtimeJsonData, hrtimeJsonData] at hd
  simp only [List.cons.injEq, true_and] at hd
  obtain ⟨h1, h2⟩ := appendCommaInj (natDec a) (natDec c) (natDec b ++ [']'])
    (natDec d ++ [']']) (natDecNoComma a) (natDecNoComma c) hd
  simp only [List.append_left_inj] at h2
  have hac := natDecInj a c h1
  have hbd := natDecInj b d h2
  subst hac
  subst hbd
  rfl

/-! ## Claim C9 -/

/-- Claim C9: two UUID calls with distinct hrtime readings return distinct
identifiers.  The uuid v5 hash is an external collaborator; it is assumed
collision-free at the fixed derived namespace (the collision resistance the
spec requires of it).  What the source contributes, proved here, is that
distinct readings always feed DISTINCT name strings to the hash: the name is
JSON.stringify of the [seconds, nanoseconds] pair, which is injective in the
reading. -/
theorem uuid_distinct_for_distinct_hrtime (uuid5 : String → String → String)
    (hinj : Function.Injective
      (fun name => uuid5 name (uuid5 "nl.mediaserve.common" Service.dnsNamespace)))
    (t1 t2 : Nat × Nat) (hne : t1 ≠ t2) :
    Service.UUID uuid5 t1 ≠ Service.UUID uuid5 t2 := by
  intro h
  exact hne (hrtimeJsonInj t1 t2 (hinj h))

/-- Witness for C9: with the hash instantiated to a trivially injective
function, two consecutive readings give distinct identifiers. -/
theorem uuid_distinct_for_distinct_hrtime_witness :
    Service.UUID (fun name _ => name) (0, 0) ≠
      Service.UUID (fun name _ => name) (0, 1) :=
  uuid_distinct_for_distinct_hrtime (fun name _ => name)
    (fun _ _ hab => hab) (0, 0) (0, 1) (by decide)
